import Mathlib

/-!
Shallow embedding of the GreenScore rubric evaluator (`greenscore.py`).

Records and rubric documents are Python dicts; we model scalar record
values with `Value` (numbers, booleans, strings, null), building records
and the various name-indexed maps as association lists with Python-dict
update semantics (`dinsert` replaces an existing key in place, otherwise
appends, preserving iteration order), and the rubric document as typed
structures mirroring the JSON fields the code reads.
-/

namespace GreenScore

/-- A scalar value of a building record / rubric document.  Python `None`
is `Value.null`; Python booleans compare as the integers 0/1. -/
inductive Value where
  | num (n : Int)
  | vbool (b : Bool)
  | vstr (s : String)
  | null
deriving DecidableEq, Repr

/-- Numeric view of a value: Python treats `bool` as an `int` for
comparisons, while strings and `None` are not numbers. -/
def Value.asInt : Value → Option Int
  | .num n => some n
  | .vbool b => some (if b then 1 else 0)
  | _ => none

/-- Python `a >= t` for a record value against a numeric rubric constant. -/
def pyGe (a : Value) (t : Int) : Bool :=
  match a.asInt with
  | some n => decide (t ≤ n)
  | none => false

/-- Python `a <= t` for a record value against a numeric rubric constant. -/
def pyLe (a : Value) (t : Int) : Bool :=
  match a.asInt with
  | some n => decide (n ≤ t)
  | none => false

/-- Python `a < t` for a record value against a numeric rubric constant. -/
def pyLt (a : Value) (t : Int) : Bool :=
  match a.asInt with
  | some n => decide (n < t)
  | none => false

/-- Python `==` between two scalar values (numbers and booleans compare
numerically, `None == None` holds, cross-kind comparisons are false). -/
def pyEq (a b : Value) : Bool :=
  match a.asInt, b.asInt with
  | some m, some n => decide (m = n)
  | _, _ =>
    match a, b with
    | .vstr s, .vstr t => decide (s = t)
    | .null, .null => true
    | _, _ => false

/-- A building record: Python dict from parameter key to scalar value. -/
abbrev BuildingRecord := List (String × Value)

/-- `d.get(k)`: `None` (here `Value.null`) when the key is absent. -/
def getEntry (bd : BuildingRecord) (k : String) : Value :=
  match bd.lookup k with
  | some v => v
  | none => Value.null

/-- `d.get(k, dflt)`. -/
def getEntryD (bd : BuildingRecord) (k : String) (dflt : Value) : Value :=
  match bd.lookup k with
  | some v => v
  | none => dflt

/-- Python dict assignment `d[k] = v`: replaces the existing binding in
place (keeping its position in iteration order), else appends. -/
def dinsert {α : Type} : List (String × α) → String → α → List (String × α)
  | [], k, v => [(k, v)]
  | kv :: rest, k, v =>
    if kv.1 = k then (k, v) :: rest else kv :: dinsert rest k v

/-- `safe_num` from `calculate_credit_points`: `0 if val is None else val`. -/
def safe_num : Value → Value
  | .null => .num 0
  | v => v

/-! ## Rubric model (the fields of `advant_standard.json` the code reads) -/

/-- A `conditional_sum` condition: `{name, param, threshold, points}`. -/
structure SumCond where
  name : String
  param : String
  threshold : Int
  points : Int
  input_type : Option String := none
deriving DecidableEq, Repr

/-- An `either_or` option-group condition: `{name, param, threshold? , value?}`. -/
structure OptCond where
  name : String
  param : String
  threshold : Option Int := none
  value : Option Value := none
  input_type : Option String := none
deriving DecidableEq, Repr

/-- An `either_or` option group: `{points?, conditions?}` (the code uses
`option.get("points", 1)` and `option.get("conditions", [])`). -/
structure OptionGroup where
  points : Option Int := none
  conditions : List OptCond := []
deriving DecidableEq, Repr

/-- A numeric band `{min?, max?, points}`. -/
structure ScoreRange where
  min : Option Int := none
  max : Option Int := none
  points : Int
deriving DecidableEq, Repr

/-- A `range_based` calculation body or one `composite_sum` part:
`{name, param, ranges}`. -/
structure RangePart where
  name : String
  param : String
  ranges : List ScoreRange
  input_type : Option String := none
deriving DecidableEq, Repr

/-- The primary condition of a `single_condition` calculation. -/
structure SingleCond where
  name : String
  param : String
  threshold : Int
  points : Int
  input_type : Option String := none
deriving DecidableEq, Repr

/-- The `additional_requirements` object of a `single_condition`
calculation; every field is read with `.get`, so all are optional. -/
structure AddReq where
  name : Option String := none
  param : Option String := none
  min_required : Option Int := none
  input_type : Option String := none
deriving DecidableEq, Repr

/-- The tagged `calculation` object of a credit.  `unknown` stands for a
`type` string outside the five recognized kinds. -/
inductive Calculation where
  | conditional_sum (conditions : List SumCond)
  | either_or (options : List OptionGroup)
  | range_based (spec : RangePart)
  | composite_sum (parts : List RangePart)
  | single_condition (condition : SingleCond)
      (additional_requirements : Option AddReq)
  | unknown (typeName : String)
deriving DecidableEq, Repr

structure Credit where
  sub_id : String
  name : String := ""
  max_points : Int
  calculation : Calculation
deriving DecidableEq, Repr

structure Category where
  id : String
  name : String := ""
  max_points : Int
  credits : List Credit
deriving DecidableEq, Repr

structure CertLevel where
  name : String
  min_points : Int
  max_points : Int
deriving DecidableEq, Repr

structure EligibilityCriteria where
  building_type : List String
  operational_years_gte : Int
deriving DecidableEq, Repr

structure Standard where
  eligibility_criteria : EligibilityCriteria
  categories : List Category
  certification_levels : List CertLevel
deriving DecidableEq, Repr

/-! ## Eligibility gate (`check_eligibility`) -/

/-- `GreenScoreCalculator.check_eligibility`. -/
def check_eligibility (std : Standard) (bd : BuildingRecord) : Bool × String :=
  let criteria := std.eligibility_criteria
  if criteria.building_type.any
      (fun t => pyEq (getEntry bd "building_type") (.vstr t)) = false then
    (false, "Building type not eligible")
  else if pyLt (getEntryD bd "operational_years" (.num 0))
      criteria.operational_years_gte then
    (false, "Building has not been operational long enough")
  else
    (true, "Eligible")

/-! ## Credit evaluator (`calculate_credit_points`) -/

/-- One entry of the evidence list:
`{"condition": ..., "result": ..., "points": ...}`. -/
structure Outcome where
  condition : String
  result : Bool
  points : Int
deriving DecidableEq, Repr

/-- The `conditional_sum` loop: every condition is checked with `>=`
against the `safe_num` view of the record, contributions are summed. -/
def evalSumConds (bd : BuildingRecord) (conds : List SumCond) :
    Int × List Outcome :=
  conds.foldl (fun acc cond =>
    let val := safe_num (getEntry bd cond.param)
    if pyGe val cond.threshold then
      (acc.1 + cond.points, acc.2 ++ [⟨cond.name, true, cond.points⟩])
    else
      (acc.1, acc.2 ++ [⟨cond.name, false, 0⟩])) ((0 : Int), ([] : List Outcome))

/-- Whether one `either_or` condition fires: a `threshold` check requires
the raw value to be non-`None` and `>=` the threshold; a `value` check
compares the raw record value with Python `==`. -/
def optCondHit (bd : BuildingRecord) (c : OptCond) : Bool :=
  let val := getEntry bd c.param
  (match c.threshold with
   | some t => (decide (val ≠ Value.null)) && pyGe val t
   | none => false)
  ||
  (match c.value with
   | some v => pyEq (getEntry bd c.param) v
   | none => false)

/-- The inner `either_or` loop with its `break`: the first condition of
the group that fires, if any. -/
def scanConds (bd : BuildingRecord) : List OptCond → Option OptCond
  | [] => none
  | c :: rest => if optCondHit bd c then some c else scanConds bd rest

/-- One `either_or` option group: the first firing condition earns the
group's point value (`option.get("points", 1)`) exactly once and is
recorded as a satisfied outcome.  The source then appends an unsatisfied
outcome for every condition of the group whenever `group_points == 0`
(lines 65-67) — which happens when no condition fired, but also when one
fired and the group's declared point value is 0. -/
def evalOptionGroup (bd : BuildingRecord) (g : OptionGroup) :
    Int × List Outcome :=
  let group_max := g.points.getD 1
  let hit := scanConds bd g.conditions
  let group_points : Int :=
    match hit with
    | some _ => group_max
    | none => 0
  let hitEvidence : List Outcome :=
    match hit with
    | some c => [⟨c.name, true, group_max⟩]
    | none => []
  let failEvidence : List Outcome :=
    if group_points = 0 then g.conditions.map (fun c => ⟨c.name, false, 0⟩)
    else []
  (group_points, hitEvidence ++ failEvidence)

/-- The outer `either_or` loop over option groups. -/
def evalOptions (bd : BuildingRecord) (options : List OptionGroup) :
    Int × List Outcome :=
  options.foldl (fun acc g =>
    let r := evalOptionGroup bd g
    (acc.1 + r.1, acc.2 ++ r.2)) ((0 : Int), ([] : List Outcome))

/-- Band membership as in the source: `min_ok = min is None or val >= min`,
`max_ok = max is None or val <= max`. -/
def rangeMatches (val : Value) (r : ScoreRange) : Bool :=
  (match r.min with
   | none => true
   | some m => pyGe val m)
  &&
  (match r.max with
   | none => true
   | some m => pyLe val m)

/-- The `range_based` loop with its early `return`. -/
def scanRanges (val : Value) (nm : String) : List ScoreRange → Int × List Outcome
  | [] => (0, [⟨nm, false, 0⟩])
  | r :: rest =>
    if rangeMatches val r then (r.points, [⟨nm, true, r.points⟩])
    else scanRanges val nm rest

/-- The inner `composite_sum` loop with its `break`; a part with no
matching band contributes 0 and records no outcome. -/
def scanPartRanges (val : Value) (nm : String) :
    List ScoreRange → Int × List Outcome
  | [] => (0, [])
  | r :: rest =>
    if rangeMatches val r then (r.points, [⟨nm, true, r.points⟩])
    else scanPartRanges val nm rest

/-- One `composite_sum` part. -/
def evalPart (bd : BuildingRecord) (part : RangePart) : Int × List Outcome :=
  scanPartRanges (safe_num (getEntry bd part.param)) part.name part.ranges

/-- The outer `composite_sum` loop: part contributions are summed and
their evidence concatenated. -/
def evalParts (bd : BuildingRecord) (parts : List RangePart) : Int × List Outcome :=
  parts.foldl (fun acc part =>
    let pr := evalPart bd part
    (acc.1 + pr.1, acc.2 ++ pr.2)) ((0 : Int), ([] : List Outcome))

/-- `building_data.get(k)` where `k` itself came from a `.get` and may be
`None`; a Python dict with string keys has no `None` key, so that lookup
yields `None`. -/
def getOptEntry (bd : BuildingRecord) : Option String → Value
  | some k => getEntry bd k
  | none => Value.null

/-- `GreenScoreCalculator.calculate_credit_points`.  Dispatches on the
calculation `type`; an unrecognized type falls through to `(0, [])`. -/
def calculate_credit_points (credit : Credit) (bd : BuildingRecord) :
    Int × List Outcome :=
  let max_points := credit.max_points
  match credit.calculation with
  | .conditional_sum conds =>
    let r := evalSumConds bd conds
    (min r.1 max_points, r.2)
  | .either_or options =>
    let r := evalOptions bd options
    (min r.1 max_points, r.2)
  | .range_based spec =>
    scanRanges (safe_num (getEntry bd spec.param)) spec.name spec.ranges
  | .composite_sum parts =>
    let r := evalParts bd parts
    (min r.1 max_points, r.2)
  | .single_condition cond addreq =>
    let min_req_param : Option String := addreq.bind (fun a => a.param)
    let min_required : Int := (addreq.bind (fun a => a.min_required)).getD 0
    let val := safe_num (getEntry bd cond.param)
    let min_val := safe_num (getOptEntry bd min_req_param)
    if pyGe val cond.threshold && pyGe min_val min_required then
      (cond.points, [⟨cond.name, true, cond.points⟩])
    else
      (0, [⟨cond.name, false, 0⟩])
  | .unknown _ => (0, [])

/-! ## Score aggregation (`calculate_total_score`) -/

/-- The per-credit entry stored under `credit_scores[sub_id]`. -/
structure CreditScore where
  points : Int
  conditions : List Outcome
deriving DecidableEq, Repr

/-- The inner loop of `calculate_total_score`: accumulate one category's
credit points and record each credit's result under its `sub_id`. -/
def creditFold (bd : BuildingRecord) (credits : List Credit)
    (start : Int × List (String × CreditScore)) :
    Int × List (String × CreditScore) :=
  credits.foldl (fun acc2 credit =>
    let r := calculate_credit_points credit bd
    (acc2.1 + r.1, dinsert acc2.2 credit.sub_id ⟨r.1, r.2⟩)) start

/-- One iteration of the outer loop of `calculate_total_score`: evaluate
the category's credits from a fresh 0, clamp to the category max, add to
the running total and record the category score under its id. -/
def categoryStep (bd : BuildingRecord)
    (acc : Int × List (String × Int) × List (String × CreditScore))
    (category : Category) :
    Int × List (String × Int) × List (String × CreditScore) :=
  let inner := creditFold bd category.credits ((0 : Int), acc.2.2)
  let cat_score := min inner.1 category.max_points
  (acc.1 + cat_score, dinsert acc.2.1 category.id cat_score, inner.2)

/-- `GreenScoreCalculator.calculate_total_score`: per category, sum the
credit points, clamp to the category max, then sum the clamped category
scores into the total. -/
def calculate_total_score (std : Standard) (bd : BuildingRecord) :
    Int × List (String × Int) × List (String × CreditScore) :=
  std.categories.foldl (categoryStep bd)
    ((0 : Int), ([] : List (String × Int)), ([] : List (String × CreditScore)))

/-- `GreenScoreCalculator.get_certification_level`. -/
def get_certification_level (std : Standard) (total : Int) : String :=
  match std.certification_levels.find?
      (fun l => decide (l.min_points ≤ total) && decide (total ≤ l.max_points)) with
  | some l => l.name
  | none => "No Certification"

/-! ## Evaluation pipeline (`evaluate_enhanced`) -/

/-- A value of the result dict returned by `evaluate_enhanced`. -/
inductive RVal where
  | b (x : Bool)
  | s (x : String)
  | n (x : Int)
  | cats (m : List (String × Int))
  | creds (m : List (String × CreditScore))
deriving DecidableEq, Repr

abbrev EvalResult := List (String × RVal)

/-- `GreenScoreCalculator.evaluate_enhanced`: gate first; if ineligible,
return only `eligible`/`reason`; else the full scored result (the total
is stored under the key `"green_score"`). -/
def evaluate_enhanced (std : Standard) (bd : BuildingRecord) : EvalResult :=
  let e := check_eligibility std bd
  if e.1 = false then
    [("eligible", .b false), ("reason", .s e.2)]
  else
    let r := calculate_total_score std bd
    [("eligible", .b true),
     ("green_score", .n r.1),
     ("category_scores", .cats r.2.1),
     ("credit_scores", .creds r.2.2),
     ("certification_level", .s (get_certification_level std r.1))]

/-! ## Name-based API (`_iter_questions`, `_build_name_param_maps`,
the record translation inside `evaluate_named`) -/

/-- One question dict yielded by `_iter_questions` (only the fields the
name/param maps read; a missing `name`/`param` is modelled by `""`,
which is falsy exactly like Python `None`). -/
structure Question where
  name : String
  param : String
  input_type : Option String
deriving DecidableEq, Repr

/-- The questions `_iter_questions` yields for one credit. -/
def creditQuestions (credit : Credit) : List Question :=
  match credit.calculation with
  | .conditional_sum conds =>
    conds.map (fun c => ⟨c.name, c.param, c.input_type⟩)
  | .either_or options =>
    options.flatMap (fun g => g.conditions.map (fun c => ⟨c.name, c.param, c.input_type⟩))
  | .range_based spec => [⟨spec.name, spec.param, spec.input_type⟩]
  | .composite_sum parts =>
    parts.map (fun p => ⟨p.name, p.param, p.input_type⟩)
  | .single_condition cond addreq =>
    ⟨cond.name, cond.param, cond.input_type⟩ ::
    (match addreq with
     | some a => [⟨a.name.getD "", a.param.getD "", a.input_type⟩]
     | none => [])
  | .unknown _ => []

/-- `_iter_questions` over the whole standard, in document order. -/
def iter_questions (std : Standard) : List Question :=
  std.categories.flatMap (fun cat => cat.credits.flatMap creditQuestions)

/-- `_build_name_param_maps`: dicts `name -> param` and
`name -> input_type`, skipping questions with a falsy name or param, and
recording `input_type` only when it is truthy. -/
def build_name_param_maps (std : Standard) :
    List (String × String) × List (String × String) :=
  (iter_questions std).foldl (fun maps q =>
    if q.name ≠ "" ∧ q.param ≠ "" then
      (dinsert maps.1 q.name q.param,
       match q.input_type with
       | some it => if it ≠ "" then dinsert maps.2 q.name it else maps.2
       | none => maps.2)
    else maps) (([], []) : List (String × String) × List (String × String))

/-- The value `evaluate_named` stores for a known input name: the
caller's answer when present, else the per-kind default (`False` for a
declared boolean, `0` otherwise). -/
def namedValue (answers : List (String × Value))
    (name_to_input_type : List (String × String)) (name : String) : Value :=
  match answers.lookup name with
  | some v => v
  | none =>
    let itype := (name_to_input_type.lookup name).getD "number"
    if itype = "boolean" then .vbool false else .num 0

/-- The `building_data` construction of `evaluate_named` (lines 374-387):
eligibility defaults first, then every known name is copied from the
answers under its param key, or explicitly defaulted per its declared
input kind. -/
def translateNamedRecord (std : Standard) (answers : List (String × Value)) :
    BuildingRecord :=
  let maps := build_name_param_maps std
  let init : BuildingRecord :=
    [("building_type", (answers.lookup "building_type").getD (.vstr "Commercial")),
     ("operational_years", (answers.lookup "operational_years").getD (.num 2))]
  maps.1.foldl (fun bd np => dinsert bd np.2 (namedValue answers maps.2 np.1)) init

/-- `evaluate_named` (with the standard injected; loading
`advant_standard.json` is the caller's concern): translate the named
answers, run `evaluate_enhanced`, and on an eligible result pop
`credit_scores` and re-insert it as `credit_details`. -/
def evaluate_named (std : Standard) (answers : List (String × Value)) :
    EvalResult :=
  let result := evaluate_enhanced std (translateNamedRecord std answers)
  let isEligible := match result.lookup "eligible" with
    | some (.b b) => b
    | _ => true
  if isEligible then
    match result.lookup "credit_scores" with
    | some v => (result.filter (fun kv => kv.1 ≠ "credit_scores"))
        ++ [("credit_details", v)]
    | none => result
  else result

/-! ## Derived definitions and concrete fixtures used by the claims -/

/-- The calculation kinds that read the building record only through
`safe_num` (every kind except `either_or`, whose threshold test keeps
`None` apart from 0 and whose value test compares the raw value). -/
def Calculation.readsThroughSafeNum : Calculation → Bool
  | .either_or _ => false
  | _ => true

/-! ## Shared concrete fixtures -/

/-- The concrete-scenario credit of spec §8: a `conditional_sum` with
thresholds 20/50 awarding 5/3 points, credit max 8. -/
def demoConditionalCredit : Credit :=
  { sub_id := "1.1", max_points := 8,
    calculation := .conditional_sum
      [{ name := "a", param := "p1", threshold := 20, points := 5 },
       { name := "b", param := "p2", threshold := 50, points := 3 }] }

/-- A `range_based` credit whose only band awards 10 points while the
credit max is 2 — exhibits that the `range_based` branch never clamps. -/
def overflowRangeCredit : Credit :=
  { sub_id := "r2", max_points := 2,
    calculation := .range_based
      { name := "q", param := "p",
        ranges := [{ min := some 0, max := none, points := 10 }] } }

/-- An `either_or` credit whose single condition has threshold 0: an
explicit 0 satisfies `0 >= 0`, while an absent value fails the
`val is not None` guard of the `either_or` branch. -/
def zeroThresholdEitherOr : Credit :=
  { sub_id := "e", max_points := 3,
    calculation := .either_or
      [{ points := some 3,
         conditions := [{ name := "c", param := "p", threshold := some 0 }] }] }

/-- The calculation kinds whose evaluator branch applies
`min(total, max_points)` before returning. -/
def Calculation.clampsToMax : Calculation → Bool
  | .conditional_sum _ => true
  | .either_or _ => true
  | .composite_sum _ => true
  | _ => false

/-- The first band of a `composite_sum` part matched by the record's
value, in declaration order. -/
def partFirstMatch (bd : BuildingRecord) (part : RangePart) : Option ScoreRange :=
  part.ranges.find? (rangeMatches (safe_num (getEntry bd part.param)))

/-- The unclamped sum of a category's credit points. -/
def categoryCreditSum (bd : BuildingRecord) (cat : Category) : Int :=
  (cat.credits.map (fun credit => (calculate_credit_points credit bd).1)).sum

/-- A category's score: its credit-point sum clamped to the category max. -/
def categoryScore (bd : BuildingRecord) (cat : Category) : Int :=
  min (categoryCreditSum bd cat) cat.max_points

/-- A one-category standard built around the §8 conditional-sum credit. -/
def demoStandard : Standard :=
  { eligibility_criteria :=
      { building_type := ["Commercial", "Institutional"], operational_years_gte := 1 },
    categories := [{ id := "c1", max_points := 8, credits := [demoConditionalCredit] }],
    certification_levels := [{ name := "Bronze", min_points := 0, max_points := 10 }] }

/-- The §8 concrete record. -/
def demoRecord : BuildingRecord :=
  [("building_type", .vstr "Commercial"), ("operational_years", .num 2),
   ("p1", .num 25), ("p2", .num 40)]

/-- A record whose building type is outside `demoStandard`'s allowed set. -/
def ineligibleRecord : BuildingRecord := [("building_type", .vstr "Residential")]

/-- A standard whose two condition names `a` and `b` share the parameter
key `p` — the shape on which the round-trip breaks. -/
def collidingStandard : Standard :=
  { eligibility_criteria :=
      { building_type := ["Commercial"], operational_years_gte := 1 },
    categories := [{ id := "c", max_points := 2, credits := [
      { sub_id := "1", max_points := 2, calculation := .conditional_sum [
        { name := "a", param := "p", threshold := 0, points := 1,
          input_type := some "number" },
        { name := "b", param := "p", threshold := 0, points := 1,
          input_type := some "number" } ] } ] }],
    certification_levels := [] }

/-- A standard with two inputs on distinct parameter keys, one numeric
and one boolean. -/
def namedDemoStandard : Standard :=
  { eligibility_criteria :=
      { building_type := ["Commercial"], operational_years_gte := 1 },
    categories := [{ id := "c", max_points := 2, credits := [
      { sub_id := "1", max_points := 2, calculation := .conditional_sum [
        { name := "alpha", param := "q1", threshold := 5, points := 1,
          input_type := some "number" },
        { name := "beta", param := "q2", threshold := 1, points := 1,
          input_type := some "boolean" } ] } ] }],
    certification_levels := [] }

/-! ## Basic lemmas about the dict model -/

theorem lookup_dinsert_self {α : Type} (m : List (String × α)) (k : String) (v : α) :
    (dinsert m k v).lookup k = some v := by
  induction m with
  | nil => simp [dinsert, List.lookup_cons]
  | cons kv rest ih =>
    obtain ⟨k1, v1⟩ := kv
    by_cases h : k1 = k
    · simp [dinsert, h, List.lookup_cons]
    · simp [dinsert, h, List.lookup_cons, beq_false_of_ne (Ne.symm h), ih]

theorem lookup_dinsert_ne {α : Type} (m : List (String × α)) (k j : String) (v : α)
    (h : j ≠ k) : (dinsert m k v).lookup j = m.lookup j := by
  induction m with
  | nil => simp [dinsert, List.lookup_cons, beq_false_of_ne h]
  | cons kv rest ih =>
    obtain ⟨k1, v1⟩ := kv
    by_cases hk : k1 = k
    · subst hk
      simp [dinsert, List.lookup_cons, beq_false_of_ne h]
    · by_cases hj : j = k1
      · simp [dinsert, hk, List.lookup_cons, hj]
      · simp [dinsert, hk, List.lookup_cons, beq_false_of_ne hj, ih]

theorem getEntry_dinsert_self (bd : BuildingRecord) (k : String) (v : Value) :
    getEntry (dinsert bd k v) k = v := by
  simp [getEntry, lookup_dinsert_self]

theorem getEntry_dinsert_ne (bd : BuildingRecord) (k j : String) (v : Value)
    (h : j ≠ k) : getEntry (dinsert bd k v) j = getEntry bd j := by
  simp [getEntry, lookup_dinsert_ne _ _ _ _ h]

theorem mem_dinsert {α : Type} {m : List (String × α)} {k : String} {v : α}
    {x : String × α} (hx : x ∈ dinsert m k v) : x = (k, v) ∨ x ∈ m := by
  induction m with
  | nil => simpa [dinsert] using hx
  | cons kv rest ih =>
    by_cases h : kv.1 = k
    · simp only [dinsert, h, if_pos] at hx
      rcases List.mem_cons.1 hx with h1 | h2
      · exact Or.inl h1
      · exact Or.inr (List.mem_cons_of_mem _ h2)
    · simp only [dinsert, h, if_neg, not_false_iff] at hx
      rcases List.mem_cons.1 hx with h1 | h2
      · exact Or.inr (h1 ▸ List.mem_cons_self _ _)
      · rcases ih h2 with h3 | h4
        · exact Or.inl h3
        · exact Or.inr (List.mem_cons_of_mem _ h4)

theorem lookup_mem {α : Type} :
    ∀ {m : List (String × α)} {k : String} {v : α},
      m.lookup k = some v → (k, v) ∈ m := by
  intro m
  induction m with
  | nil => intro k v h; simp [List.lookup] at h
  | cons kv rest ih =>
    intro k v h
    obtain ⟨k1, v1⟩ := kv
    rw [List.lookup_cons] at h
    by_cases hk : k = k1
    · subst hk
      simp at h
      subst h
      exact List.mem_cons_self _ _
    · rw [beq_false_of_ne hk] at h
      exact List.mem_cons_of_mem _ (ih h)

/-! ## The scanning loops as first-match lookups -/

theorem scanConds_eq_find (bd : BuildingRecord) (l : List OptCond) :
    scanConds bd l = l.find? (optCondHit bd) := by
  induction l with
  | nil => rfl
  | cons c rest ih =>
    by_cases h : optCondHit bd c
    · simp [scanConds, h, List.find?]
    · simp only [Bool.not_eq_true] at h
      simp [scanConds, h, List.find?]
      exact ih

theorem scanRanges_eq_find (val : Value) (nm : String) (l : List ScoreRange) :
    scanRanges val nm l =
      match l.find? (rangeMatches val) with
      | some r => (r.points, [⟨nm, true, r.points⟩])
      | none => (0, [⟨nm, false, 0⟩]) := by
  induction l with
  | nil => rfl
  | cons r rest ih =>
    by_cases h : rangeMatches val r
    · simp [scanRanges, h, List.find?]
    · simp only [Bool.not_eq_true] at h
      simp [scanRanges, h, List.find?]
      exact ih

theorem scanPartRanges_eq_find (val : Value) (nm : String) (l : List ScoreRange) :
    scanPartRanges val nm l =
      match l.find? (rangeMatches val) with
      | some r => (r.points, [⟨nm, true, r.points⟩])
      | none => (0, []) := by
  induction l with
  | nil => rfl
  | cons r rest ih =>
    by_cases h : rangeMatches val r
    · simp [scanPartRanges, h, List.find?]
    · simp only [Bool.not_eq_true] at h
      simp [scanPartRanges, h, List.find?]
      exact ih

/-- An option group earns its point value exactly when some condition of
the group fires; its evidence records the first firing condition,
followed by an unsatisfied outcome for every condition exactly when the
group's contribution is 0 (no condition fired, or the group declares 0
points). -/
theorem evalOptionGroup_eq (bd : BuildingRecord) (g : OptionGroup) :
    evalOptionGroup bd g =
      ((if g.conditions.any (optCondHit bd) then g.points.getD 1 else 0),
       (match g.conditions.find? (optCondHit bd) with
        | some c => [⟨c.name, true, g.points.getD 1⟩]
        | none => []) ++
       (if (if g.conditions.any (optCondHit bd) then g.points.getD 1 else 0) = 0
        then g.conditions.map (fun c => ⟨c.name, false, 0⟩)
        else [])) := by
  rw [evalOptionGroup, scanConds_eq_find]
  cases hf : g.conditions.find? (optCondHit bd) with
  | some c =>
    have hany : g.conditions.any (optCondHit bd) = true :=
      List.any_eq_true.2 ⟨c, List.mem_of_find?_eq_some hf, List.find?_some hf⟩
    simp [hany]
  | none =>
    have hany : g.conditions.any (optCondHit bd) = false := by
      rw [List.any_eq_false]
      intro c hc
      exact (List.find?_eq_none.1 hf) c hc
    simp [hany]

/-! ## Sum/append characterization of the accumulator folds -/

theorem foldl_sum_append {α β : Type} (f : α → Int × List β) :
    ∀ (l : List α) (s : Int) (e : List β),
      l.foldl (fun acc a => (acc.1 + (f a).1, acc.2 ++ (f a).2)) (s, e)
        = (s + (l.map (fun a => (f a).1)).sum,
           e ++ l.flatMap (fun a => (f a).2)) := by
  intro l
  induction l with
  | nil => intro s e; simp
  | cons a rest ih =>
    intro s e
    simp only [List.foldl_cons, ih, List.map_cons, List.sum_cons, List.flatMap_cons]
    rw [Prod.mk.injEq]
    constructor
    · ring
    · simp [List.append_assoc]

theorem evalOptions_eq (bd : BuildingRecord) (options : List OptionGroup) :
    evalOptions bd options =
      ((options.map (fun g => (evalOptionGroup bd g).1)).sum,
       options.flatMap (fun g => (evalOptionGroup bd g).2)) := by
  show options.foldl (fun acc g =>
      (acc.1 + (evalOptionGroup bd g).1, acc.2 ++ (evalOptionGroup bd g).2))
      ((0 : Int), ([] : List Outcome)) = _
  rw [foldl_sum_append]
  simp

theorem evalParts_eq (bd : BuildingRecord) (parts : List RangePart) :
    evalParts bd parts =
      ((parts.map (fun p => (evalPart bd p).1)).sum,
       parts.flatMap (fun p => (evalPart bd p).2)) := by
  show parts.foldl (fun acc p =>
      (acc.1 + (evalPart bd p).1, acc.2 ++ (evalPart bd p).2))
      ((0 : Int), ([] : List Outcome)) = _
  rw [foldl_sum_append]
  simp

/-! ## Lemmas about the translation fold of `evaluate_named` -/

theorem lookup_foldl_dinsert_of_not_written (f : String × String → Value) :
    ∀ (l : List (String × String)) (bd0 : BuildingRecord) (pa : String),
      (∀ np ∈ l, np.2 ≠ pa) →
      (l.foldl (fun bd np => dinsert bd np.2 (f np)) bd0).lookup pa = bd0.lookup pa := by
  intro l
  induction l with
  | nil => intro bd0 pa _; rfl
  | cons np rest ih =>
    intro bd0 pa h
    simp only [List.foldl_cons]
    rw [ih _ _ (fun x hx => h x (List.mem_cons_of_mem _ hx))]
    exact lookup_dinsert_ne _ _ _ _ (Ne.symm (h np (List.mem_cons_self _ _)))

theorem lookup_foldl_dinsert_of_written (f : String × String → Value) (v : Value) :
    ∀ (l : List (String × String)) (bd0 : BuildingRecord) (pa : String),
      (∃ np ∈ l, np.2 = pa) →
      (∀ np ∈ l, np.2 = pa → f np = v) →
      (l.foldl (fun bd np => dinsert bd np.2 (f np)) bd0).lookup pa = some v := by
  intro l
  induction l with
  | nil =>
    rintro bd0 pa ⟨np, hmem, _⟩ _
    exact absurd hmem (List.not_mem_nil np)
  | cons np rest ih =>
    intro bd0 pa hex hall
    simp only [List.foldl_cons]
    by_cases hrest : ∃ x ∈ rest, x.2 = pa
    · exact ih _ _ hrest (fun x hx hx2 => hall x (List.mem_cons_of_mem _ hx) hx2)
    · have hnp : np.2 = pa := by
        rcases hex with ⟨x, hx, hx2⟩
        rcases List.mem_cons.1 hx with h1 | h2
        · rw [← h1]; exact hx2
        · exact absurd ⟨x, h2, hx2⟩ hrest
      rw [lookup_foldl_dinsert_of_not_written f rest _ pa
            (fun x hx hc => hrest ⟨x, hx, hc⟩)]
      rw [hnp, lookup_dinsert_self]
      rw [hall np (List.mem_cons_self _ _) hnp]

/-! ## Record-extensionality of the non-`either_or` kinds -/

theorem evalSumConds_congr {bd1 bd2 : BuildingRecord} (conds : List SumCond)
    (hsv : ∀ q, safe_num (getEntry bd1 q) = safe_num (getEntry bd2 q)) :
    evalSumConds bd1 conds = evalSumConds bd2 conds := by
  unfold evalSumConds
  apply List.foldl_ext
  intro acc cond _
  rw [hsv]

theorem evalParts_congr {bd1 bd2 : BuildingRecord} (parts : List RangePart)
    (hsv : ∀ q, safe_num (getEntry bd1 q) = safe_num (getEntry bd2 q)) :
    evalParts bd1 parts = evalParts bd2 parts := by
  unfold evalParts
  apply List.foldl_ext
  intro acc part _
  unfold evalPart
  rw [hsv]

/-- Two records with the same `safe_num` view are indistinguishable to
every calculation kind except `either_or`. -/
theorem calculate_credit_points_congr (credit : Credit) {bd1 bd2 : BuildingRecord}
    (hk : credit.calculation.readsThroughSafeNum = true)
    (hsv : ∀ q, safe_num (getEntry bd1 q) = safe_num (getEntry bd2 q)) :
    calculate_credit_points credit bd1 = calculate_credit_points credit bd2 := by
  cases hc : credit.calculation with
  | conditional_sum conds =>
    simp only [calculate_credit_points, hc, evalSumConds_congr conds hsv]
  | either_or options =>
    rw [hc] at hk
    simp [Calculation.readsThroughSafeNum] at hk
  | range_based spec =>
    simp only [calculate_credit_points, hc, hsv]
  | composite_sum parts =>
    simp only [calculate_credit_points, hc, evalParts_congr parts hsv]
  | single_condition cond addreq =>
    have h2 : safe_num (getOptEntry bd1 (addreq.bind fun a => a.param)) =
        safe_num (getOptEntry bd2 (addreq.bind fun a => a.param)) := by
      cases addreq.bind fun a => a.param with
      | some p => simp only [getOptEntry, hsv]
      | none => rfl
    simp only [calculate_credit_points, hc, hsv, h2]
  | unknown t =>
    simp only [calculate_credit_points, hc]

/-! ## Claim C1 -/

/-- C1: for a credit whose calculation type is outside the five
recognized kinds, `calculate_credit_points` silently returns 0 points
and an empty evidence list for every record — it does not fail with an
`UnsupportedCalculationKind` error as the spec requires (the fall-through
at the end of the dispatch chain). -/
theorem c1_unknown_kind_silent_zero (sub nm : String) (maxp : Int)
    (tn : String) (bd : BuildingRecord) :
    calculate_credit_points ⟨sub, nm, maxp, .unknown tn⟩ bd = (0, []) := rfl

/-! ## Claim C2 -/

/-- C2 counterexample: a `range_based` credit with max 2 whose matched
band awards 10 points returns 10, violating the claimed clamp. -/
theorem c2_counterexample :
    (calculate_credit_points overflowRangeCredit [("p", Value.num 5)]).1 = 10
    ∧ overflowRangeCredit.max_points = 2
    ∧ ¬ (calculate_credit_points overflowRangeCredit [("p", Value.num 5)]).1
        ≤ overflowRangeCredit.max_points := by
  refine ⟨rfl, rfl, ?_⟩
  decide

/-- C2 (amended): the returned points are clamped to the credit's
`max_points` for the `conditional_sum`, `either_or` and `composite_sum`
kinds; the `range_based` branch returns the first matching band's points
unclamped, and the `single_condition` branch returns the condition's
fixed points or 0 unclamped. -/
theorem c2_clamping_per_kind :
    (∀ (credit : Credit) (bd : BuildingRecord),
      credit.calculation.clampsToMax = true →
      (calculate_credit_points credit bd).1 ≤ credit.max_points)
    ∧ (∀ (sub nm : String) (maxp : Int) (spec : RangePart) (bd : BuildingRecord)
        (r : ScoreRange),
      spec.ranges.find? (rangeMatches (safe_num (getEntry bd spec.param))) = some r →
      (calculate_credit_points ⟨sub, nm, maxp, .range_based spec⟩ bd).1 = r.points)
    ∧ (∀ (sub nm : String) (maxp : Int) (cond : SingleCond) (addreq : Option AddReq)
        (bd : BuildingRecord),
      (calculate_credit_points ⟨sub, nm, maxp, .single_condition cond addreq⟩ bd).1
          = cond.points
      ∨ (calculate_credit_points ⟨sub, nm, maxp, .single_condition cond addreq⟩ bd).1
          = 0) := by
  refine ⟨?_, ?_, ?_⟩
  · intro credit bd h
    cases hc : credit.calculation with
    | conditional_sum conds =>
      simp only [calculate_credit_points, hc]
      exact min_le_right _ _
    | either_or options =>
      simp only [calculate_credit_points, hc]
      exact min_le_right _ _
    | composite_sum parts =>
      simp only [calculate_credit_points, hc]
      exact min_le_right _ _
    | range_based spec => rw [hc] at h; simp [Calculation.clampsToMax] at h
    | single_condition cond addreq => rw [hc] at h; simp [Calculation.clampsToMax] at h
    | unknown t => rw [hc] at h; simp [Calculation.clampsToMax] at h
  · intro sub nm maxp spec bd r hf
    simp only [calculate_credit_points]
    rw [scanRanges_eq_find, hf]
  · intro sub nm maxp cond addreq bd
    simp only [calculate_credit_points]
    by_cases h : (pyGe (safe_num (getEntry bd cond.param)) cond.threshold
        && pyGe (safe_num (getOptEntry bd (addreq.bind fun a => a.param)))
            ((addreq.bind fun a => a.min_required).getD 0)) = true
    · left; simp [h]
    · right; simp only [Bool.not_eq_true] at h; simp [h]

/-- C2 witness: the clamp theorem applied to the §8 conditional-sum
credit, and the unclamped range theorem applied to the overflowing
`range_based` credit. -/
theorem c2_clamping_witness :
    (calculate_credit_points demoConditionalCredit [("p1", Value.num 25)]).1
        ≤ demoConditionalCredit.max_points
    ∧ (calculate_credit_points overflowRangeCredit [("p", Value.num 5)]).1 = 10 :=
  ⟨c2_clamping_per_kind.1 demoConditionalCredit [("p1", Value.num 25)] rfl,
   c2_clamping_per_kind.2.1 "r2" "" 2
     { name := "q", param := "p",
       ranges := [{ min := some 0, max := none, points := 10 }] }
     [("p", Value.num 5)] { min := some 0, max := none, points := 10 } (by decide)⟩

/-! ## Claim C3 -/

/-- C3 counterexample: for an `either_or` credit with a threshold-0
condition, the record with the parameter absent scores 0 while the
record with the parameter explicitly 0 scores 3 — absent is not treated
as numeric 0 by the `either_or` branch. -/
theorem c3_counterexample :
    (calculate_credit_points zeroThresholdEitherOr []).1 = 0
    ∧ (calculate_credit_points zeroThresholdEitherOr [("p", Value.num 0)]).1 = 3
    ∧ calculate_credit_points zeroThresholdEitherOr []
        ≠ calculate_credit_points zeroThresholdEitherOr [("p", Value.num 0)] := by
  refine ⟨rfl, rfl, ?_⟩
  decide

/-- C3 (amended): for every calculation kind except `either_or`, an
absent or null record value is treated exactly as numeric 0 — adding the
parameter explicitly as 0 (or as null) to a record where it was absent
leaves the credit evaluation unchanged.  (`either_or` is the exception:
its threshold test fails outright on an absent/null value and its
exact-value test compares the raw value.) -/
theorem c3_absent_equals_zero (credit : Credit) (bd : BuildingRecord)
    (p : String) (hk : credit.calculation.readsThroughSafeNum = true)
    (hp : bd.lookup p = none) :
    calculate_credit_points credit (dinsert bd p (Value.num 0)) =
        calculate_credit_points credit bd
    ∧ calculate_credit_points credit (dinsert bd p Value.null) =
        calculate_credit_points credit bd := by
  have key : ∀ w : Value, safe_num w = Value.num 0 →
      ∀ q, safe_num (getEntry (dinsert bd p w) q) = safe_num (getEntry bd q) := by
    intro w hw q
    by_cases hq : q = p
    · subst hq
      rw [getEntry_dinsert_self, hw]
      simp [getEntry, hp, safe_num]
    · rw [getEntry_dinsert_ne _ _ _ _ hq]
  exact ⟨calculate_credit_points_congr credit hk (key (Value.num 0) rfl),
         calculate_credit_points_congr credit hk (key Value.null rfl)⟩

/-- C3 witness: adding `p2 := 0` to the §8 record leaves the
conditional-sum credit's result unchanged. -/
theorem c3_witness :
    calculate_credit_points demoConditionalCredit
        (dinsert [("p1", Value.num 25)] "p2" (Value.num 0)) =
      calculate_credit_points demoConditionalCredit [("p1", Value.num 25)] :=
  (c3_absent_equals_zero demoConditionalCredit [("p1", Value.num 25)] "p2"
    rfl (by decide)).1

/-! ## Claim C4 -/

/-- C4: for every `either_or` credit, each option group contributes its
declared point value (default 1) exactly once when at least one of its
conditions succeeds — regardless of how many are satisfiable — and 0
when none does; group contributions are summed and then clamped to the
credit max.  The evidence records the first successful condition in
declaration order (`List.find?`) — scanning stops there — followed by an
unsatisfied outcome for every condition of the group exactly when the
group's contribution is 0 (no condition fired, or the group declares 0
points, mirroring the source's `group_points == 0` test). -/
theorem c4_either_or_groups (sub nm : String) (maxp : Int)
    (options : List OptionGroup) (bd : BuildingRecord) :
    calculate_credit_points ⟨sub, nm, maxp, .either_or options⟩ bd =
      (min ((options.map (fun g =>
          if g.conditions.any (optCondHit bd) then g.points.getD 1 else 0)).sum) maxp,
       options.flatMap (fun g =>
          (match g.conditions.find? (optCondHit bd) with
           | some c => [⟨c.name, true, g.points.getD 1⟩]
           | none => []) ++
          (if (if g.conditions.any (optCondHit bd) then g.points.getD 1 else 0) = 0
           then g.conditions.map (fun c => ⟨c.name, false, 0⟩)
           else []))) := by
  simp only [calculate_credit_points, evalOptions_eq, evalOptionGroup_eq]

/-! ## Claim C5 -/

/-- C5: a `range_based` credit awards the points of the first band in
declaration order that matches (`value >= min` or no lower bound, and
`value <= max` or no upper bound), 0 when none matches; a
`composite_sum` credit applies the same first-match rule independently
per part, sums the contributions and clamps to the credit max.  Since
the selection is `List.find?`, overlap between bands is resolved purely
by list order. -/
theorem c5_first_matching_range :
    (∀ (sub nm : String) (maxp : Int) (spec : RangePart) (bd : BuildingRecord),
      calculate_credit_points ⟨sub, nm, maxp, .range_based spec⟩ bd =
        match spec.ranges.find? (rangeMatches (safe_num (getEntry bd spec.param))) with
        | some r => (r.points, [⟨spec.name, true, r.points⟩])
        | none => (0, [⟨spec.name, false, 0⟩]))
    ∧ (∀ (sub nm : String) (maxp : Int) (parts : List RangePart) (bd : BuildingRecord),
      calculate_credit_points ⟨sub, nm, maxp, .composite_sum parts⟩ bd =
        (min ((parts.map (fun part =>
            match partFirstMatch bd part with
            | some r => r.points
            | none => 0)).sum) maxp,
         parts.flatMap (fun part =>
            match partFirstMatch bd part with
            | some r => [⟨part.name, true, r.points⟩]
            | none => []))) := by
  constructor
  · intro sub nm maxp spec bd
    simp only [calculate_credit_points]
    rw [scanRanges_eq_find]
  · intro sub nm maxp parts bd
    have hpt : ∀ part, evalPart bd part =
        ((match partFirstMatch bd part with
          | some r => r.points
          | none => 0),
         (match partFirstMatch bd part with
          | some r => [(⟨part.name, true, r.points⟩ : Outcome)]
          | none => [])) := by
      intro part
      unfold evalPart partFirstMatch
      rw [scanPartRanges_eq_find]
      cases part.ranges.find? (rangeMatches (safe_num (getEntry bd part.param))) <;> rfl
    simp only [calculate_credit_points, evalParts_eq, hpt]

/-! ## Claim C6 -/

theorem creditFold_fst (bd : BuildingRecord) :
    ∀ (credits : List Credit) (a : Int) (cs : List (String × CreditScore)),
      (creditFold bd credits (a, cs)).1
        = a + (credits.map (fun credit => (calculate_credit_points credit bd).1)).sum := by
  intro credits
  induction credits with
  | nil => intro a cs; simp [creditFold]
  | cons c rest ih =>
    intro a cs
    have hstep : creditFold bd (c :: rest) (a, cs)
        = creditFold bd rest
            (a + (calculate_credit_points c bd).1,
             dinsert cs c.sub_id
               ⟨(calculate_credit_points c bd).1, (calculate_credit_points c bd).2⟩) := rfl
    rw [hstep, ih, List.map_cons, List.sum_cons, add_assoc]

theorem catStep_score (bd : BuildingRecord)
    (acc : Int × List (String × Int) × List (String × CreditScore)) (c : Category) :
    min (creditFold bd c.credits ((0 : Int), acc.2.2)).1 c.max_points
      = categoryScore bd c := by
  rw [creditFold_fst]
  simp [categoryScore, categoryCreditSum]

theorem categories_fold_fst (bd : BuildingRecord) :
    ∀ (cats : List Category) (acc : Int × List (String × Int) × List (String × CreditScore)),
      (cats.foldl (categoryStep bd) acc).1 = acc.1 + (cats.map (categoryScore bd)).sum := by
  intro cats
  induction cats with
  | nil => intro acc; simp
  | cons c rest ih =>
    intro acc
    rw [List.foldl_cons, ih]
    have hfst : (categoryStep bd acc c).1 = acc.1 + categoryScore bd c := by
      simp only [categoryStep, catStep_score]
    rw [hfst, List.map_cons, List.sum_cons, add_assoc]

theorem categories_fold_catScores (bd : BuildingRecord) :
    ∀ (cats : List Category) (acc : Int × List (String × Int) × List (String × CreditScore))
      (e : String × Int), e ∈ (cats.foldl (categoryStep bd) acc).2.1 →
      e ∈ acc.2.1 ∨ ∃ cat ∈ cats, e = (cat.id, categoryScore bd cat) := by
  intro cats
  induction cats with
  | nil => intro acc e he; exact Or.inl he
  | cons c rest ih =>
    intro acc e he
    rw [List.foldl_cons] at he
    rcases ih _ e he with h1 | ⟨cat, hcat, heq⟩
    · have h2 : (categoryStep bd acc c).2.1
          = dinsert acc.2.1 c.id (categoryScore bd c) := by
        simp only [categoryStep, catStep_score]
      rw [h2] at h1
      rcases mem_dinsert h1 with h3 | h4
      · exact Or.inr ⟨c, List.mem_cons_self _ _, h3⟩
      · exact Or.inl h4
    · exact Or.inr ⟨cat, List.mem_cons_of_mem _ hcat, heq⟩

/-- C6: for every standard and record, the total score is the sum over
the categories of `min(sum of the category's credit points, category
max)`, and every entry of the category-score map is such an
already-clamped score of one of the categories — in particular it never
exceeds that category's declared max. -/
theorem c6_category_aggregation (std : Standard) (bd : BuildingRecord) :
    (calculate_total_score std bd).1 = (std.categories.map (categoryScore bd)).sum
    ∧ ∀ e ∈ (calculate_total_score std bd).2.1,
        ∃ cat ∈ std.categories, e = (cat.id, categoryScore bd cat)
          ∧ e.2 ≤ cat.max_points := by
  constructor
  · rw [calculate_total_score, categories_fold_fst]
    simp
  · intro e he
    rw [calculate_total_score] at he
    rcases categories_fold_catScores bd std.categories _ e he with h1 | ⟨cat, hcat, heq⟩
    · simp at h1
    · refine ⟨cat, hcat, heq, ?_⟩
      rw [heq]
      exact min_le_right _ _

/-- C6 witness: the aggregation theorem applied to the §8 scenario,
whose category-score map is `[("c1", 5)]`. -/
theorem c6_witness :
    ∃ cat ∈ demoStandard.categories,
      (("c1", (5 : Int)) : String × Int) = (cat.id, categoryScore demoRecord cat)
      ∧ (("c1", (5 : Int)) : String × Int).2 ≤ cat.max_points :=
  (c6_category_aggregation demoStandard demoRecord).2 ("c1", 5) (by decide)

/-! ## Claim C7 -/

/-- `getEntryD` is `Option.getD` of the lookup. -/
theorem getEntryD_eq_getD (bd : BuildingRecord) (k : String) (d : Value) :
    getEntryD bd k d = (bd.lookup k).getD d := by
  rw [getEntryD]
  cases bd.lookup k <;> rfl

/-- An ineligible result carries one of the two fixed reason strings. -/
theorem check_eligibility_reason (std : Standard) (bd : BuildingRecord)
    (h : (check_eligibility std bd).1 = false) :
    (check_eligibility std bd).2 = "Building type not eligible"
    ∨ (check_eligibility std bd).2 = "Building has not been operational long enough" := by
  rw [check_eligibility] at h ⊢
  split_ifs at h ⊢ <;> simp_all

/-- C7 counterexample: for an eligible record, the result of
`evaluate_enhanced` has no `total_score` key — the total is stored under
`green_score` — so the claimed interface field set does not hold as
stated. -/
theorem c7_counterexample :
    (check_eligibility demoStandard demoRecord).1 = true
    ∧ (evaluate_enhanced demoStandard demoRecord).lookup "total_score" = none
    ∧ (evaluate_enhanced demoStandard demoRecord).map Prod.fst
        = ["eligible", "green_score", "category_scores", "credit_scores",
           "certification_level"] := by
  refine ⟨rfl, by decide, rfl⟩

/-- C7 (amended): for every record failing eligibility the pipeline
returns exactly `{eligible: false, reason}` with a non-null reason (one
of the two fixed strings) and no score fields; for every eligible record
the result carries exactly the keys `eligible`, `green_score` (the total
score — named `green_score`, not `total_score` as in the spec
interface), `category_scores`, `credit_scores`, `certification_level`,
and no `reason`. -/
theorem c7_result_shape (std : Standard) (bd : BuildingRecord) :
    ((check_eligibility std bd).1 = false →
      evaluate_enhanced std bd =
        [("eligible", .b false), ("reason", .s (check_eligibility std bd).2)]
      ∧ ((check_eligibility std bd).2 = "Building type not eligible"
        ∨ (check_eligibility std bd).2 = "Building has not been operational long enough"))
    ∧ ((check_eligibility std bd).1 = true →
      (evaluate_enhanced std bd).map Prod.fst
        = ["eligible", "green_score", "category_scores", "credit_scores",
           "certification_level"]
      ∧ (evaluate_enhanced std bd).lookup "green_score"
          = some (.n (calculate_total_score std bd).1)
      ∧ (evaluate_enhanced std bd).lookup "certification_level"
          = some (.s (get_certification_level std (calculate_total_score std bd).1))
      ∧ (evaluate_enhanced std bd).lookup "reason" = none) := by
  constructor
  · intro h
    refine ⟨?_, check_eligibility_reason std bd h⟩
    simp only [evaluate_enhanced, h, if_pos]
  · intro h
    have hne : ¬ ((check_eligibility std bd).1 = false) := by rw [h]; simp
    simp only [evaluate_enhanced, hne, if_neg]
    refine ⟨rfl, ?_, ?_, ?_⟩ <;> simp [List.lookup_cons]

/-- C7 witness: the shape theorem applied to an ineligible record (wrong
building type) and to the eligible §8 record. -/
theorem c7_witness :
    (evaluate_enhanced demoStandard ineligibleRecord =
        [("eligible", .b false),
         ("reason", .s (check_eligibility demoStandard ineligibleRecord).2)]
      ∧ ((check_eligibility demoStandard ineligibleRecord).2
            = "Building type not eligible"
        ∨ (check_eligibility demoStandard ineligibleRecord).2
            = "Building has not been operational long enough"))
    ∧ ((evaluate_enhanced demoStandard demoRecord).map Prod.fst
        = ["eligible", "green_score", "category_scores", "credit_scores",
           "certification_level"]
      ∧ (evaluate_enhanced demoStandard demoRecord).lookup "green_score"
          = some (.n (calculate_total_score demoStandard demoRecord).1)
      ∧ (evaluate_enhanced demoStandard demoRecord).lookup "certification_level"
          = some (.s (get_certification_level demoStandard
              (calculate_total_score demoStandard demoRecord).1))
      ∧ (evaluate_enhanced demoStandard demoRecord).lookup "reason" = none) :=
  ⟨(c7_result_shape demoStandard ineligibleRecord).1 rfl,
   (c7_result_shape demoStandard demoRecord).2 rfl⟩

/-! ## Claim C8 -/

/-- C8 counterexample: the ineligibility reasons are the fixed strings
`"Building type not eligible"` and `"Building has not been operational
long enough"`; neither names the allowed building types nor the minimum
years (here `1`). -/
theorem c8_counterexample :
    check_eligibility demoStandard ineligibleRecord
        = (false, "Building type not eligible")
    ∧ ¬ ("Commercial".data <:+: "Building type not eligible".data)
    ∧ ¬ ("Institutional".data <:+: "Building type not eligible".data)
    ∧ check_eligibility demoStandard [("building_type", Value.vstr "Commercial")]
        = (false, "Building has not been operational long enough")
    ∧ ¬ ("1".data <:+: "Building has not been operational long enough".data) := by
  refine ⟨rfl, by decide, by decide, rfl, by decide⟩

/-- C8 (amended): the gate fails closed — a building type matching none
of the allowed values yields ineligible with the fixed reason
`"Building type not eligible"` (which does not name the allowed set); an
allowed type with operational years (missing treated as 0) below the
minimum yields ineligible with the fixed reason `"Building has not been
operational long enough"` (which does not name the minimum); both checks
passing yields eligible. -/
theorem c8_fail_closed (std : Standard) (bd : BuildingRecord) (yrs : Int)
    (hy : ((bd.lookup "operational_years").getD (Value.num 0)).asInt = some yrs) :
    ((∀ t ∈ std.eligibility_criteria.building_type,
        pyEq (getEntry bd "building_type") (.vstr t) = false) →
      check_eligibility std bd = (false, "Building type not eligible"))
    ∧ ((∃ t ∈ std.eligibility_criteria.building_type,
        pyEq (getEntry bd "building_type") (.vstr t) = true) →
      ((yrs < std.eligibility_criteria.operational_years_gte →
        check_eligibility std bd
          = (false, "Building has not been operational long enough"))
      ∧ (std.eligibility_criteria.operational_years_gte ≤ yrs →
        check_eligibility std bd = (true, "Eligible"))))
    ∧ (bd.lookup "operational_years" = none →
      check_eligibility std bd
        = check_eligibility std (dinsert bd "operational_years" (Value.num 0))) := by
  have hval : pyLt (getEntryD bd "operational_years" (Value.num 0))
      std.eligibility_criteria.operational_years_gte
      = decide (yrs < std.eligibility_criteria.operational_years_gte) := by
    rw [getEntryD_eq_getD]
    simp only [pyLt, hy]
  refine ⟨?_, ?_, ?_⟩
  · intro h
    have hany : (std.eligibility_criteria.building_type.any
        (fun t => pyEq (getEntry bd "building_type") (.vstr t))) = false := by
      rw [List.any_eq_false]
      intro t ht
      simp [h t ht]
    simp only [check_eligibility, hany, if_pos]
  · intro hex
    have hany : (std.eligibility_criteria.building_type.any
        (fun t => pyEq (getEntry bd "building_type") (.vstr t))) = true := by
      rcases hex with ⟨t, ht, hpt⟩
      exact List.any_eq_true.2 ⟨t, ht, hpt⟩
    constructor
    · intro hlt
      have hplt : pyLt (getEntryD bd "operational_years" (Value.num 0))
          std.eligibility_criteria.operational_years_gte = true := by
        rw [hval]
        exact decide_eq_true hlt
      simp [check_eligibility, hany, hplt]
    · intro hge
      have hplt : pyLt (getEntryD bd "operational_years" (Value.num 0))
          std.eligibility_criteria.operational_years_gte = false := by
        rw [hval]
        exact decide_eq_false (not_lt.2 hge)
      simp [check_eligibility, hany, hplt]
  · intro hnone
    have h1 : getEntry (dinsert bd "operational_years" (Value.num 0)) "building_type"
        = getEntry bd "building_type" := getEntry_dinsert_ne _ _ _ _ (by decide)
    have h2 : getEntryD (dinsert bd "operational_years" (Value.num 0))
        "operational_years" (Value.num 0) = Value.num 0 := by
      rw [getEntryD_eq_getD, lookup_dinsert_self]
      rfl
    have h3 : getEntryD bd "operational_years" (Value.num 0) = Value.num 0 := by
      rw [getEntryD_eq_getD, hnone]
      rfl
    simp only [check_eligibility, h1, h2, h3]

/-- C8 witness: the gate theorem applied to a wrong building type, to an
eligible record, and to a record with too few operational years. -/
theorem c8_witness :
    check_eligibility demoStandard ineligibleRecord
        = (false, "Building type not eligible")
    ∧ check_eligibility demoStandard demoRecord = (true, "Eligible")
    ∧ check_eligibility demoStandard
        [("building_type", Value.vstr "Institutional"), ("operational_years", Value.num 0)]
        = (false, "Building has not been operational long enough") :=
  ⟨(c8_fail_closed demoStandard ineligibleRecord 0 rfl).1 (by decide),
   ((c8_fail_closed demoStandard demoRecord 2 rfl).2.1
      ⟨"Commercial", by decide, by decide⟩).2 (by decide),
   ((c8_fail_closed demoStandard
      [("building_type", Value.vstr "Institutional"), ("operational_years", Value.num 0)]
      0 rfl).2.1 ⟨"Institutional", by decide, by decide⟩).1 (by decide)⟩

/-! ## Claim C9 -/

/-- C9 counterexample: with two names sharing the parameter `p`, the
answer `{a: 5}` is overwritten by the later name `b`'s default 0, so the
translated record holds 0 where the round-trip claims 5. -/
theorem c9_counterexample :
    (build_name_param_maps collidingStandard).1.lookup "a" = some "p"
    ∧ getEntry (translateNamedRecord collidingStandard [("a", Value.num 5)]) "p"
        = Value.num 0
    ∧ getEntry (translateNamedRecord collidingStandard [("a", Value.num 5)]) "p"
        ≠ Value.num 5 := by
  refine ⟨by decide, by decide, by decide⟩

/-- C9 (amended): the Name/Param round-trip holds for every name whose
parameter key is not shared with any other name of the index (as in a
standard whose parameter keys are pairwise distinct): an answered name's
value lands under its param key, and an unanswered name is explicitly
defaulted per its declared input kind — `False` for a declared boolean,
`0` otherwise. -/
theorem c9_roundtrip (std : Standard) (answers : List (String × Value))
    (name pa : String)
    (hlk : (build_name_param_maps std).1.lookup name = some pa)
    (huniq : ∀ pr ∈ (build_name_param_maps std).1, pr.2 = pa → pr.1 = name) :
    (∀ v, answers.lookup name = some v →
      (translateNamedRecord std answers).lookup pa = some v)
    ∧ (answers.lookup name = none →
      (translateNamedRecord std answers).lookup pa =
        some (if ((build_name_param_maps std).2.lookup name).getD "number" = "boolean"
              then Value.vbool false else Value.num 0)) := by
  have hmem : ((name, pa) : String × String) ∈ (build_name_param_maps std).1 :=
    lookup_mem hlk
  have key : (translateNamedRecord std answers).lookup pa
      = some (namedValue answers (build_name_param_maps std).2 name) := by
    simp only [translateNamedRecord]
    apply lookup_foldl_dinsert_of_written
      (fun np => namedValue answers (build_name_param_maps std).2 np.1)
    · exact ⟨(name, pa), hmem, rfl⟩
    · intro np hnp hnp2
      rw [huniq np hnp hnp2]
  constructor
  · intro v hv
    rw [key, namedValue, hv]
  · intro hv
    rw [key, namedValue, hv]

/-- C9 witness: the round-trip theorem applied to `namedDemoStandard`
with answer `{alpha: 7}`: `q1` receives 7, and the unanswered boolean
`beta` is defaulted to `False` under `q2`. -/
theorem c9_witness :
    (translateNamedRecord namedDemoStandard [("alpha", Value.num 7)]).lookup "q1"
        = some (Value.num 7)
    ∧ (translateNamedRecord namedDemoStandard [("alpha", Value.num 7)]).lookup "q2"
        = some (Value.vbool false) := by
  constructor
  · exact (c9_roundtrip namedDemoStandard [("alpha", Value.num 7)] "alpha" "q1"
      (by decide) (by decide)).1 (Value.num 7) rfl
  · have h := (c9_roundtrip namedDemoStandard [("alpha", Value.num 7)] "beta" "q2"
      (by decide) (by decide)).2 (by decide)
    simpa using h

/-! ## Claim C10 -/

/-- C10: when the answers carry neither `building_type` nor
`operational_years`, the name-based evaluation defaults them to
`"Commercial"` and `2`; under a standard allowing `Commercial` with
minimum years at most 2 (whose input params do not collide with the two
eligibility keys), the result is eligible and fully scored — the keys
are exactly `eligible`, `green_score`, `category_scores`,
`certification_level`, `credit_details`. -/
theorem c10_eligibility_defaults (std : Standard) (answers : List (String × Value))
    (hbt : answers.lookup "building_type" = none)
    (hoy : answers.lookup "operational_years" = none)
    (hC : "Commercial" ∈ std.eligibility_criteria.building_type)
    (hg : std.eligibility_criteria.operational_years_gte ≤ 2)
    (hps : ∀ pr ∈ (build_name_param_maps std).1,
        pr.2 ≠ "building_type" ∧ pr.2 ≠ "operational_years") :
    (evaluate_named std answers).lookup "eligible" = some (.b true)
    ∧ (evaluate_named std answers).map Prod.fst
        = ["eligible", "green_score", "category_scores",
           "certification_level", "credit_details"]
    ∧ (∃ t : Int, (evaluate_named std answers).lookup "green_score" = some (.n t))
    ∧ (∃ lv : String,
        (evaluate_named std answers).lookup "certification_level" = some (.s lv))
    ∧ (∃ cd : RVal,
        (evaluate_named std answers).lookup "credit_details" = some cd) := by
  have h1 : (translateNamedRecord std answers).lookup "building_type"
      = some (Value.vstr "Commercial") := by
    simp only [translateNamedRecord]
    rw [lookup_foldl_dinsert_of_not_written _ _ _ _
      (fun np hnp => (hps np hnp).1)]
    simp [List.lookup_cons, hbt]
  have h2 : (translateNamedRecord std answers).lookup "operational_years"
      = some (Value.num 2) := by
    simp only [translateNamedRecord]
    rw [lookup_foldl_dinsert_of_not_written _ _ _ _
      (fun np hnp => (hps np hnp).2)]
    simp [List.lookup_cons, hoy]
  have hbt2 : getEntry (translateNamedRecord std answers) "building_type"
      = Value.vstr "Commercial" := by
    simp only [getEntry, h1]
  have hany : (std.eligibility_criteria.building_type.any
      (fun t => pyEq (getEntry (translateNamedRecord std answers) "building_type")
        (.vstr t))) = true := by
    refine List.any_eq_true.2 ⟨"Commercial", hC, ?_⟩
    rw [hbt2]
    decide
  have hplt : pyLt (getEntryD (translateNamedRecord std answers)
      "operational_years" (Value.num 0))
      std.eligibility_criteria.operational_years_gte = false := by
    rw [getEntryD_eq_getD, h2]
    simp only [Option.getD_some, pyLt, Value.asInt]
    exact decide_eq_false (by omega)
  have helig : check_eligibility std (translateNamedRecord std answers)
      = (true, "Eligible") := by
    simp [check_eligibility, hany, hplt]
  have hee : evaluate_enhanced std (translateNamedRecord std answers)
      = [("eligible", .b true),
         ("green_score", .n (calculate_total_score std (translateNamedRecord std answers)).1),
         ("category_scores", .cats (calculate_total_score std (translateNamedRecord std answers)).2.1),
         ("credit_scores", .creds (calculate_total_score std (translateNamedRecord std answers)).2.2),
         ("certification_level", .s (get_certification_level std
            (calculate_total_score std (translateNamedRecord std answers)).1))] := by
    simp [evaluate_enhanced, helig]
  simp only [evaluate_named, hee]
  refine ⟨?_, ?_, ?_, ?_, ?_⟩ <;>
    simp [List.lookup_cons, List.filter]

/-- C10 witness: the defaults theorem applied to `demoStandard` with an
empty answer map. -/
theorem c10_witness :
    (evaluate_named demoStandard []).lookup "eligible" = some (.b true)
    ∧ (evaluate_named demoStandard []).map Prod.fst
        = ["eligible", "green_score", "category_scores",
           "certification_level", "credit_details"]
    ∧ (∃ t : Int, (evaluate_named demoStandard []).lookup "green_score" = some (.n t))
    ∧ (∃ lv : String,
        (evaluate_named demoStandard []).lookup "certification_level" = some (.s lv))
    ∧ (∃ cd : RVal,
        (evaluate_named demoStandard []).lookup "credit_details" = some cd) :=
  c10_eligibility_defaults demoStandard [] rfl rfl (by decide) (by decide) (by decide)

end GreenScore
